import Mathlib

/-!
Verification of `fashion_crawler.py` (Skirts History image crawler).

Shallow embedding notes:
  * Python strings are Lean `String`s; the character classes of the regexes
    `\w` and `\s` are modelled on their ASCII fragment (the manifest data the
    crawler consumes is ASCII).
  * A raised Python exception is modelled by `PyError`: the flag
    `isConnOrTimeout` records whether it is an instance of
    `(ConnectionError, TimeoutError)`, and `msg` is `str(exc)`.
  * The behaviour of one external engine call is an oracle
    `EngineBeh : String → String → Option PyError` (engine name, query ↦
    `none` for a normal return, `some e` for a raised error).
  * `random.uniform a b` is modelled as `a + (b - a) * u` over `ℚ`, where the
    unit draw `u` comes from a stream `JitterSource` (Python's `random()`
    yields values in `[0, 1)`).
  * Filesystem side effects (directory creation, image counting) and log
    output are not part of any claim's observable and are elided; sleeps,
    engine invocations and checkpoint writes are recorded in an event trace.
-/

namespace FashionCrawler

/-! ## Configuration constants (`fashion_crawler.py`, lines 55-58) -/

def IMAGES_PER_ENGINE : Nat := 3

def INTER_ENGINE_DELAY : Nat := 3

def JITTER_MIN : ℚ := 2

def JITTER_MAX : ℚ := 5

/-! ## String helpers -/

/-- Python `str.lower()` (ASCII fragment), characterwise. -/
def pyLower (s : String) : String := String.mk (s.data.map Char.toLower)

/-- ASCII fragment of the regex class `\s` and of `str.strip()`'s default
whitespace set: space, tab, newline, carriage return, vertical tab, form feed. -/
def isSpaceChar (c : Char) : Bool :=
  c == ' ' || c == '\t' || c == '\n' || c == '\r' || c == '\x0b' || c == '\x0c'

/-- ASCII fragment of the regex class `\w`: alphanumerics and underscore. -/
def isWordChar (c : Char) : Bool :=
  c.isAlphanum || c == '_'

/-- A character matched by `[\s_]`. -/
def isSepChar (c : Char) : Bool := isSpaceChar c || c == '_'

/-- Python `str.strip()`: drop leading and trailing whitespace. -/
def pyStrip (s : String) : String :=
  String.mk (((s.data.dropWhile isSpaceChar).reverse.dropWhile isSpaceChar).reverse)

/-- Model of `re.sub(r"[\s_]+", "_", ·)`: replace every maximal run of whitespace or
underscores by a single underscore.  The flag records whether the previous
character belonged to such a run. -/
def collapseSeps : Bool → List Char → List Char
  | _, [] => []
  | inRun, c :: rest =>
    if isSepChar c then
      if inRun then collapseSeps true rest
      else '_' :: collapseSeps true rest
    else c :: collapseSeps false rest

/-- Python `str.strip("_")`: drop leading and trailing underscores. -/
def stripUnderscores (l : List Char) : List Char :=
  ((l.dropWhile (· == '_')).reverse.dropWhile (· == '_')).reverse

/-- Embedding of `slugify` (`fashion_crawler.py`, lines 153-158):
`text.lower().strip()`, strip punctuation (`re.sub(r"[^\w\s]", "", ·)`),
collapse whitespace/underscore runs, trim underscores. -/
def slugify (text : String) : String :=
  let t := pyStrip (pyLower text)
  let kept := t.data.filter (fun c => isWordChar c || isSpaceChar c)
  String.mk (stripUnderscores (collapseSeps false kept))

/-- Python `str.zfill(width)`: left-pad with `'0'` up to `width`, keeping a
leading sign character in front of the padding. -/
def zfill (s : String) (width : Nat) : String :=
  match s.data with
  | [] => String.mk (List.replicate width '0')
  | c :: rest =>
    if c == '-' || c == '+' then
      String.mk (c :: (List.replicate (width - (rest.length + 1)) '0' ++ rest))
    else
      String.mk (List.replicate (width - (rest.length + 1)) '0' ++ (c :: rest))

/-- A manifest `era_index` is an int or a string (manifest schema `<int|string>`). -/
def EraIndex : Type := Int ⊕ String

/-- Embedding of `str(raw_idx).zfill(2) if isinstance(raw_idx, int) else str(raw_idx)`
(`fashion_crawler.py`, line 168). -/
def idx_str : EraIndex → String
  | Sum.inl n => zfill (Int.repr n) 2
  | Sum.inr s => s

/-- The era folder identifier built by `build_era_folder`
(`fashion_crawler.py`, lines 161-171): `f"{idx_str}_{slugify(era['title'])}"`.
The directory-creation side effect is elided; the name doubles as the
checkpoint key (`folder.name`). -/
def build_era_folder_name (raw_idx : EraIndex) (title : String) : String :=
  idx_str raw_idx ++ "_" ++ slugify title

/-! ## Checkpoint store (`fashion_crawler.py`, lines 232-276)

A Python dict with string keys and list-of-string values is modelled as an
association list with (at most) one entry per key, preserving insertion
order, exactly as `json` round-trips it. -/

abbrev Checkpoint : Type := List (String × List String)

/-- Lookup `checkpoint.get(era_key)` as an optional lookup (first matching key). -/
def cp_get (cp : Checkpoint) (k : String) : Option (List String) :=
  (cp.find? (fun p => p.1 == k)).map (·.2)

/-- Embedding of `is_done` (`fashion_crawler.py`, lines 266-268):
`query in checkpoint.get(era_key, [])`. -/
def is_done (cp : Checkpoint) (era_key query : String) : Bool :=
  ((cp_get cp era_key).getD []).contains query

/-- Embedding of `mark_done` (`fashion_crawler.py`, lines 271-276):
`completed = checkpoint.setdefault(era_key, []); if query not in completed:
completed.append(query)`.  The trailing `save_checkpoint` flushes the same
in-memory value to disk and is recorded separately in the event trace. -/
def mark_done : Checkpoint → String → String → Checkpoint
  | [], era_key, query => [(era_key, [query])]
  | (k, l) :: rest, era_key, query =>
    if k == era_key then
      (k, if l.contains query then l else l ++ [query]) :: rest
    else
      (k, l) :: mark_done rest era_key query

/-- One value stored under a key of a parsed checkpoint mapping.
`load_checkpoint` checks only `isinstance(data, dict)`, so the values are
arbitrary JSON: `strs` is a JSON array of strings (the well-typed shape the
rest of the program assumes), and `unsized` is a JSON number, boolean or
null — a value on which `len(v)` raises `TypeError` (`main`, line 491).
Values that are sized but not arrays (JSON strings and objects) pass line
491 and fail, if at all, only deep in `mark_done` on a key collision; no
claim concerns them and they are left out of the model. -/
inductive CpValue where
  | strs (l : List String)
  | unsized

/-- The JSON value found in `completed_queries.json` when it parses: either a
top-level mapping (the only structurally valid shape, but with arbitrary
values — see `CpValue`) or anything else. -/
inductive CheckpointJson where
  | dict (entries : List (String × CpValue))
  | nondict

/-- Observable states of the checkpoint file as `load_checkpoint` runs:
absent; present but failing with one of the two *caught* exception classes
(`OSError` or `json.JSONDecodeError`); present but holding bytes that do not
decode as UTF-8, so the read inside `json.load` raises `UnicodeDecodeError`
(a `ValueError` that is neither a `json.JSONDecodeError` nor an `OSError`);
or readable with some parsed JSON value. -/
inductive CheckpointFileState where
  | absent
  | unreadable
  | undecodable
  | readable (v : CheckpointJson)

/-- Embedding of `load_checkpoint` (`fashion_crawler.py`, lines 236-249): returns `{}` when
the file is absent, catches `json.JSONDecodeError` and `OSError` into `{}`,
returns the parsed value when it is a dict (any dict — only
`isinstance(data, dict)` is checked), and `{}` otherwise.  On an
undecodable file the `UnicodeDecodeError` raised inside `json.load` escapes
the `except (json.JSONDecodeError, OSError)` clause at line 247, so the
function raises — modelled as `none`. -/
def load_checkpoint : CheckpointFileState → Option (List (String × CpValue))
  | .absent => some []
  | .unreadable => some []
  | .undecodable => none
  | .readable (.dict entries) => some entries
  | .readable .nondict => some []

/-! ## Engine runner (`fashion_crawler.py`, lines 207-214 and 339-385) -/

/-- A raised Python exception: whether it is an instance of
`(ConnectionError, TimeoutError)`, and its `str(exc)` text. -/
structure PyError where
  isConnOrTimeout : Bool
  msg : String

def _BLOCK_SIGNALS : List String :=
  ["403", "429", "forbidden", "too many requests", "rate limit", "rate-limit"]

/-- Embedding of `_is_blocked` (`fashion_crawler.py`, lines 213-214):
`any(sig in str(exc).lower() for sig in _BLOCK_SIGNALS)`. -/
def _is_blocked (exc : PyError) : Bool :=
  _BLOCK_SIGNALS.any (fun sig => decide (sig.data <:+: (pyLower exc.msg).data))

def _OK : String := "ok"

def _SKIP_QUERY : String := "skip_query"

def _SKIP_ERA : String := "skip_era"

/-- Embedding of `run_engine` (`fashion_crawler.py`, lines 345-385), with the engine call's
outcome supplied as `none` (returned normally) or `some exc` (raised).
The `except (ConnectionError, TimeoutError)` arm consults `_is_blocked` only
to pick a log message and returns `_SKIP_QUERY` either way; the generic
`except Exception` arm returns `_SKIP_ERA` when `_is_blocked` and
`_SKIP_QUERY` otherwise. -/
def run_engine (outcome : Option PyError) : String :=
  match outcome with
  | none => _OK
  | some exc =>
    if exc.isConnOrTimeout then
      _SKIP_QUERY
    else if _is_blocked exc then
      _SKIP_ERA
    else
      _SKIP_QUERY

/-- The spec's block-signal condition, stated independently of `_is_blocked`:
the message contains, case-insensitively, one of the six signal substrings. -/
def MsgHasBlockSignal (msg : String) : Prop :=
  ∃ sig ∈ _BLOCK_SIGNALS, sig.data <:+: (pyLower msg).data

theorem _is_blocked_iff (exc : PyError) :
    _is_blocked exc = true ↔ MsgHasBlockSignal exc.msg := by
  simp [_is_blocked, MsgHasBlockSignal, List.any_eq_true]

/-- Claim C1: `run_engine` classifies a raised error asymmetrically.  A
connectivity/timeout-class error always yields `_SKIP_QUERY`, even when its
message matches a block signal; an error outside that class yields
`_SKIP_ERA` exactly when its message contains one of the six block-signal
substrings case-insensitively, and `_SKIP_QUERY` otherwise; a call that
raises nothing yields `_OK`. -/
theorem run_engine_classification (msg : String) :
    run_engine none = _OK ∧
    run_engine (some ⟨true, msg⟩) = _SKIP_QUERY ∧
    (MsgHasBlockSignal msg → run_engine (some ⟨false, msg⟩) = _SKIP_ERA) ∧
    (¬ MsgHasBlockSignal msg → run_engine (some ⟨false, msg⟩) = _SKIP_QUERY) := by
  refine ⟨rfl, rfl, ?_, ?_⟩
  · intro h
    have hb : _is_blocked ⟨false, msg⟩ = true := (_is_blocked_iff ⟨false, msg⟩).mpr h
    simp [run_engine, hb]
  · intro h
    have hb : _is_blocked ⟨false, msg⟩ = false := by
      by_contra hc
      exact h ((_is_blocked_iff ⟨false, msg⟩).mp (by revert hc; cases _is_blocked ⟨false, msg⟩ <;> simp))
    simp [run_engine, hb]

/-- Witness for C1 at concrete inputs: the message `"HTTP 403 Forbidden"`
matches a block signal (skip-era outside the connectivity class, skip-query
inside it), while `"boom"` does not (skip-query). -/
theorem run_engine_classification_witness :
    run_engine (some ⟨true, "HTTP 403 Forbidden"⟩) = _SKIP_QUERY ∧
    run_engine (some ⟨false, "HTTP 403 Forbidden"⟩) = _SKIP_ERA ∧
    run_engine (some ⟨false, "boom"⟩) = _SKIP_QUERY := by
  refine ⟨(run_engine_classification "HTTP 403 Forbidden").2.1,
    (run_engine_classification "HTTP 403 Forbidden").2.2.1 ?_,
    (run_engine_classification "boom").2.2.2 ?_⟩
  · exact ⟨"403", by decide, by decide⟩
  · intro h
    obtain ⟨sig, hsig, hinf⟩ := h
    fin_cases hsig <;> revert hinf <;> decide

/-! ## Checkpoint lemmas -/

theorem cp_get_mark_done_self (cp : Checkpoint) (k q : String) :
    cp_get (mark_done cp k q) k =
      some (if ((cp_get cp k).getD []).contains q then (cp_get cp k).getD []
            else (cp_get cp k).getD [] ++ [q]) := by
  induction cp with
  | nil => simp [mark_done, cp_get, List.find?]
  | cons p rest ih =>
    obtain ⟨k', l⟩ := p
    by_cases hk : k' = k
    · subst hk
      simp [mark_done, cp_get, List.find?]
    · have hkb : (k' == k) = false := by simp [hk]
      simpa [mark_done, cp_get, List.find?, hkb] using ih

theorem is_done_mark_done (cp : Checkpoint) (k q : String) :
    is_done (mark_done cp k q) k q = true := by
  have h := cp_get_mark_done_self cp k q
  simp only [is_done, h, Option.getD_some]
  by_cases hq : q ∈ (cp_get cp k).getD []
  · simp [hq]
  · simp [hq]

theorem mark_done_twice (cp : Checkpoint) (k q : String) :
    mark_done (mark_done cp k q) k q = mark_done cp k q := by
  induction cp with
  | nil => simp [mark_done]
  | cons p rest ih =>
    obtain ⟨k', l⟩ := p
    by_cases hk : k' = k
    · subst hk
      by_cases hq : q ∈ l <;> simp [mark_done, hq]
    · have hkb : (k' == k) = false := by simp [hk]
      simp [mark_done, hkb, ih]

theorem cp_get_mark_done_other (cp : Checkpoint) (k q k' : String) (h : k' ≠ k) :
    cp_get (mark_done cp k q) k' = cp_get cp k' := by
  induction cp with
  | nil =>
    have hne : (k == k') = false := beq_eq_false_iff_ne.mpr (Ne.symm h)
    simp [mark_done, cp_get, List.find?, hne]
  | cons p rest ih =>
    obtain ⟨k'', l⟩ := p
    by_cases hk : k'' = k
    · subst hk
      have hne : (k'' == k') = false := beq_eq_false_iff_ne.mpr (Ne.symm h)
      simp [mark_done, cp_get, List.find?, hne]
    · have hkb : (k'' == k) = false := by simp [hk]
      by_cases hk' : k'' = k'
      · subst hk'
        simp [mark_done, cp_get, List.find?, hkb]
      · have hkb' : (k'' == k') = false := by simp [hk']
        simpa [mark_done, cp_get, List.find?, hkb, hkb'] using ih

/-- Claim C4: `mark_done` followed by `is_done` (same checkpoint, era key and
query) returns true, and a second `mark_done` with the same arguments leaves
the stored mapping unchanged — no duplicate entry is inserted. -/
theorem mark_done_is_done_idempotent (cp : Checkpoint) (era_key query : String) :
    is_done (mark_done cp era_key query) era_key query = true ∧
    mark_done (mark_done cp era_key query) era_key query = mark_done cp era_key query :=
  ⟨is_done_mark_done cp era_key query, mark_done_twice cp era_key query⟩

/-- Claim C10 (frame property of `mark_done`): the entry of every era key
other than the given one is unchanged, and the given key's list becomes the
original list with the query appended once at the end when absent, and stays
exactly the original list when already present — so previously recorded
queries keep their order. -/
theorem mark_done_frame (cp : Checkpoint) (era_key query k' : String) :
    (k' ≠ era_key → cp_get (mark_done cp era_key query) k' = cp_get cp k') ∧
    cp_get (mark_done cp era_key query) era_key =
      some ((cp_get cp era_key).getD [] ++
        (if ((cp_get cp era_key).getD []).contains query then [] else [query])) := by
  constructor
  · exact cp_get_mark_done_other cp era_key query k'
  · have h := cp_get_mark_done_self cp era_key query
    by_cases hq : query ∈ (cp_get cp era_key).getD []
    · simp [h, hq]
    · simp [h, hq]

/-- Witness for C10 at a concrete checkpoint: marking `"y"` under `"a"`
leaves key `"b"` untouched and appends `"y"` to `"a"`'s list. -/
theorem mark_done_frame_witness :
    ("b" : String) ≠ "a" ∧
    cp_get (mark_done [("a", ["x"]), ("b", ["z"])] "a" "y") "b" =
      cp_get [("a", ["x"]), ("b", ["z"])] "b" :=
  ⟨by decide, (mark_done_frame [("a", ["x"]), ("b", ["z"])] "a" "y" "b").1 (by decide)⟩

/-- Claim C5 (code bug): the claim — and the function's own docstring,
"Returns {} if the file is absent or corrupt" — says `load_checkpoint` never
raises.  The states the code anticipates do behave as claimed: an absent
file, a file failing with one of the two caught exception classes, and a
non-mapping top level all load as the empty mapping, and a parsed mapping is
returned as-is.  But a checkpoint file whose bytes are not valid UTF-8 makes
the read inside `json.load` raise `UnicodeDecodeError`, which the
`except (json.JSONDecodeError, OSError)` clause at line 247 does not catch,
so `load_checkpoint` raises (`none`) instead of returning the claimed empty
mapping. -/
theorem load_checkpoint_undecodable_raises :
    load_checkpoint CheckpointFileState.absent = some [] ∧
    load_checkpoint CheckpointFileState.unreadable = some [] ∧
    load_checkpoint (CheckpointFileState.readable .nondict) = some [] ∧
    load_checkpoint (CheckpointFileState.readable
      (.dict [("k", CpValue.strs ["q"])])) = some [("k", CpValue.strs ["q"])] ∧
    load_checkpoint CheckpointFileState.undecodable = none ∧
    (none : Option (List (String × CpValue))) ≠ some [] :=
  ⟨rfl, rfl, rfl, rfl, rfl, fun h => (nomatch h)⟩

/-! ## Era processor (`fashion_crawler.py`, lines 388-458) -/

/-- Model of `random.uniform(a, b) = a + (b - a) * random()`, with the unit draw made
explicit. -/
def pyUniform (a b u : ℚ) : ℚ := a + (b - a) * u

/-- Observable actions of one era-processing run: engine invocations, the
fixed engine-switch sleep, the inter-query jitter sleep (tagged with the
1-based query index it follows and its drawn duration), and checkpoint
flushes (`save_checkpoint` inside `mark_done`). -/
inductive Event where
  | engineCall (engine : String) (query : String)
  | interEngineSleep
  | jitterSleep (i : Nat) (d : ℚ)
  | checkpointSave
deriving DecidableEq

/-- Oracle for the external engine calls: `beh engineName query` is `none` when the
call returns normally and `some exc` when it raises `exc`. -/
abbrev EngineBeh : Type := String → String → Option PyError

/-- Stream of unit draws feeding `random.uniform`, indexed by query position. -/
abbrev JitterSource : Type := Nat → ℚ

/-- Body of one iteration of the `process_era` query loop
(`fashion_crawler.py`, lines 421-456), for a query not skipped by the
checkpoint: run Bing (abort era on `_SKIP_ERA`), sleep the fixed
engine-switch delay, run Baidu (abort era on `_SKIP_ERA`), mark the query
done when either engine returned `_OK`, and apply the inter-query jitter
when this is not the last query (`if i < total`).  The returned flag is true
exactly when the era must be aborted. -/
def process_query (beh : EngineBeh) (us : JitterSource) (era_key : String)
    (total i : Nat) (q : String) (cp : Checkpoint) :
    Bool × List Event × Checkpoint :=
  let bing := run_engine (beh "Bing" q)
  if bing = _SKIP_ERA then
    (true, [Event.engineCall "Bing" q], cp)
  else
    let baidu := run_engine (beh "Baidu" q)
    if baidu = _SKIP_ERA then
      (true, [Event.engineCall "Bing" q, Event.interEngineSleep,
              Event.engineCall "Baidu" q], cp)
    else
      let step :=
        if bing = _OK ∨ baidu = _OK then
          ([Event.engineCall "Bing" q, Event.interEngineSleep,
            Event.engineCall "Baidu" q, Event.checkpointSave],
           mark_done cp era_key q)
        else
          ([Event.engineCall "Bing" q, Event.interEngineSleep,
            Event.engineCall "Baidu" q], cp)
      if i < total then
        (false, step.1 ++ [Event.jitterSleep i (pyUniform JITTER_MIN JITTER_MAX (us i))],
         step.2)
      else
        (false, step.1, step.2)

/-- The `for i, query in enumerate(queries, start=1)` loop of `process_era`:
skip checkpointed queries, otherwise run `process_query`, stopping the whole
era when it reports an abort. -/
def process_era_loop (beh : EngineBeh) (us : JitterSource) (era_key : String)
    (total : Nat) : Nat → List String → Checkpoint → List Event × Checkpoint
  | _, [], cp => ([], cp)
  | i, q :: rest, cp =>
    if is_done cp era_key q = true then
      process_era_loop beh us era_key total (i + 1) rest cp
    else
      match process_query beh us era_key total i q cp with
      | (true, evs, cp') => (evs, cp')
      | (false, evs, cp') =>
        let r := process_era_loop beh us era_key total (i + 1) rest cp'
        (evs ++ r.1, r.2)

/-- One era record of the manifest.  `era_index` and `title` are optional
because `build_era_folder` accesses `era["era_index"]` and `era["title"]`
with bracket syntax, which raises `KeyError` when the key is absent;
`icrawler_queries` is read with `era.get("icrawler_queries", [])`. -/
structure Era where
  era_index : Option EraIndex
  title : Option String
  icrawler_queries : List String

/-- Embedding of `process_era` (`fashion_crawler.py`, lines 388-458).  `none` models an
uncaught `KeyError` from `build_era_folder`; otherwise the result is the
event trace and the final checkpoint.  `already_done` counts the queries in
the manifest list already recorded in the checkpoint; when it equals the
total the era is skipped outright with no events. -/
def process_era (beh : EngineBeh) (us : JitterSource) (era : Era)
    (cp : Checkpoint) : Option (List Event × Checkpoint) :=
  match era.era_index, era.title with
  | some idx, some t =>
    let era_key := build_era_folder_name idx t
    let queries := era.icrawler_queries
    let total := queries.length
    let already_done := queries.countP (fun q => is_done cp era_key q)
    if already_done = total then some ([], cp)
    else some (process_era_loop beh us era_key total 1 queries cp)
  | _, _ => none

/-! ## Era-processor lemmas and claims -/

theorem process_query_no_abort (beh : EngineBeh) (us : JitterSource)
    (era_key : String) (total i : Nat) (q : String) (cp : Checkpoint)
    (hB : run_engine (beh "Bing" q) ≠ _SKIP_ERA)
    (hBd : run_engine (beh "Baidu" q) ≠ _SKIP_ERA) :
    process_query beh us era_key total i q cp =
      (false,
       (if run_engine (beh "Bing" q) = _OK ∨ run_engine (beh "Baidu" q) = _OK then
          [Event.engineCall "Bing" q, Event.interEngineSleep,
           Event.engineCall "Baidu" q, Event.checkpointSave]
        else
          [Event.engineCall "Bing" q, Event.interEngineSleep,
           Event.engineCall "Baidu" q]) ++
        (if i < total then
          [Event.jitterSleep i (pyUniform JITTER_MIN JITTER_MAX (us i))]
        else []),
       if run_engine (beh "Bing" q) = _OK ∨ run_engine (beh "Baidu" q) = _OK then
         mark_done cp era_key q
       else cp) := by
  by_cases hs : run_engine (beh "Bing" q) = _OK ∨ run_engine (beh "Baidu" q) = _OK <;>
    by_cases hi : i < total <;>
      simp [process_query, hB, hBd, hs, hi]

/-- Claim C2: at any reachable point of the era loop, if the pending query's
Bing invocation classifies to `_SKIP_ERA`, the loop returns at once — the
trace holds only the Bing call (Baidu is not invoked, no sleep, no
checkpoint save) and the checkpoint is unchanged, so the query is not marked
done and no later query of the era is processed; symmetrically, when Baidu
classifies to `_SKIP_ERA`, the trace ends at the Baidu call and the
checkpoint is unchanged.  The last conjunct lifts the Bing case to
`process_era` when the blocked query heads the era's manifest list. -/
theorem skip_era_aborts_era (beh : EngineBeh) (us : JitterSource)
    (era_key : String) (total i : Nat) (q : String) (rest : List String)
    (cp : Checkpoint) (hnd : is_done cp era_key q = false) :
    (run_engine (beh "Bing" q) = _SKIP_ERA →
      process_era_loop beh us era_key total i (q :: rest) cp
        = ([Event.engineCall "Bing" q], cp)) ∧
    (run_engine (beh "Bing" q) ≠ _SKIP_ERA →
      run_engine (beh "Baidu" q) = _SKIP_ERA →
      process_era_loop beh us era_key total i (q :: rest) cp
        = ([Event.engineCall "Bing" q, Event.interEngineSleep,
            Event.engineCall "Baidu" q], cp)) ∧
    (∀ (idx : EraIndex) (t : String) (era : Era),
      era.era_index = some idx → era.title = some t →
      era.icrawler_queries = q :: rest →
      era_key = build_era_folder_name idx t →
      run_engine (beh "Bing" q) = _SKIP_ERA →
      process_era beh us era cp = some ([Event.engineCall "Bing" q], cp)) := by
  refine ⟨?_, ?_, ?_⟩
  · intro hB
    simp [process_era_loop, hnd, process_query, hB]
  · intro hB hBd
    simp [process_era_loop, hnd, process_query, hB, hBd]
  · intro idx t era hidx ht hqs hkey hB
    have hne : (q :: rest).countP (fun q' => is_done cp era_key q')
        ≠ (q :: rest).length := by
      intro he
      have := List.countP_eq_length.mp he q (List.mem_cons_self q rest)
      simp only at this
      rw [this] at hnd
      exact Bool.noConfusion hnd
    subst hkey
    simp only [process_era, hidx, ht, hqs]
    rw [if_neg hne]
    simp [process_era_loop, hnd, process_query, hB]

/-- Witness for C2: Bing raising a non-connectivity error whose text contains
`403` aborts a two-query era at its first query with only the Bing call in
the trace and an unchanged (empty) checkpoint. -/
theorem skip_era_aborts_era_witness :
    is_done [] "01_a" "q" = false ∧
    run_engine ((fun _ _ => some ⟨false, "HTTP 403"⟩ : EngineBeh) "Bing" "q")
      = _SKIP_ERA ∧
    process_era_loop (fun _ _ => some ⟨false, "HTTP 403"⟩) (fun _ => 0) "01_a"
      2 1 ["q", "r"] [] = ([Event.engineCall "Bing" "q"], []) :=
  ⟨by decide, by decide,
   (skip_era_aborts_era (fun _ _ => some ⟨false, "HTTP 403"⟩) (fun _ => 0)
     "01_a" 2 1 "q" ["r"] [] (by decide)).1 (by decide)⟩

/-- Claim C3: for a query actually processed (not checkpoint-skipped, neither
engine classifying to `_SKIP_ERA`), the loop body does not abort the era and
the query is recorded done in the resulting checkpoint exactly when at least
one of the two engine invocations classified to `_OK`; when both engines
fail the checkpoint is unchanged, so the query stays absent and a later run
(whose skip test is `is_done`) will attempt it again. -/
theorem query_marked_iff_success (beh : EngineBeh) (us : JitterSource)
    (era_key : String) (total i : Nat) (q : String) (cp : Checkpoint)
    (hnd : is_done cp era_key q = false)
    (hB : run_engine (beh "Bing" q) ≠ _SKIP_ERA)
    (hBd : run_engine (beh "Baidu" q) ≠ _SKIP_ERA) :
    (process_query beh us era_key total i q cp).1 = false ∧
    (is_done (process_query beh us era_key total i q cp).2.2 era_key q = true ↔
      (run_engine (beh "Bing" q) = _OK ∨ run_engine (beh "Baidu" q) = _OK)) ∧
    (¬ (run_engine (beh "Bing" q) = _OK ∨ run_engine (beh "Baidu" q) = _OK) →
      (process_query beh us era_key total i q cp).2.2 = cp) := by
  have hpq := process_query_no_abort beh us era_key total i q cp hB hBd
  by_cases hs : run_engine (beh "Bing" q) = _OK ∨ run_engine (beh "Baidu" q) = _OK
  · simp [hpq, hs, is_done_mark_done cp era_key q]
  · simp [hpq, hs, hnd]

/-- Witness for C3: Bing succeeds and Baidu raises a connectivity error — the
query is marked done; with the engines' outcomes encoded in the oracle the
final checkpoint holds exactly this query. -/
theorem query_marked_iff_success_witness :
    is_done [] "01_a" "q" = false ∧
    (is_done (process_query
        (fun e _ => if e = "Bing" then none else some ⟨true, "connection reset"⟩)
        (fun _ => 0) "01_a" 2 1 "q" []).2.2 "01_a" "q" = true ↔
      (run_engine ((fun e _ => if e = "Bing" then none
          else some ⟨true, "connection reset"⟩ : EngineBeh) "Bing" "q") = _OK ∨
       run_engine ((fun e _ => if e = "Bing" then none
          else some ⟨true, "connection reset"⟩ : EngineBeh) "Baidu" "q") = _OK)) :=
  ⟨by decide,
   (query_marked_iff_success
     (fun e _ => if e = "Bing" then none else some ⟨true, "connection reset"⟩)
     (fun _ => 0) "01_a" 2 1 "q" [] (by decide) (by decide) (by decide)).2.1⟩

/-- Claim C8: when every query in an era's manifest list is already recorded
done in the checkpoint, `process_era` short-circuits: the event trace is
empty — no engine invocation, no engine-switch sleep, no jitter sleep, no
checkpoint save — and the checkpoint is returned unchanged. -/
theorem era_short_circuit (beh : EngineBeh) (us : JitterSource) (era : Era)
    (cp : Checkpoint) (idx : EraIndex) (t : String)
    (hidx : era.era_index = some idx) (ht : era.title = some t)
    (hall : ∀ q ∈ era.icrawler_queries,
      is_done cp (build_era_folder_name idx t) q = true) :
    process_era beh us era cp = some ([], cp) := by
  have hcount : era.icrawler_queries.countP
      (fun q => is_done cp (build_era_folder_name idx t) q)
      = era.icrawler_queries.length := List.countP_eq_length.mpr hall
  simp [process_era, hidx, ht, hcount]

/-- Witness for C8: a one-query era whose query is checkpointed produces an
empty trace and an unchanged checkpoint. -/
theorem era_short_circuit_witness :
    process_era (fun _ _ => none) (fun _ => 0)
      ⟨some (Sum.inl 1), some "A", ["q"]⟩ [("01_a", ["q"])]
      = some ([], [("01_a", ["q"])]) :=
  era_short_circuit (fun _ _ => none) (fun _ => 0)
    ⟨some (Sum.inl 1), some "A", ["q"]⟩ [("01_a", ["q"])]
    (Sum.inl 1) "A" rfl rfl (by decide)

/-! ## Jitter bounds (claim C9) -/

theorem pyUniform_bounds (u : ℚ) (h0 : 0 ≤ u) (h1 : u < 1) :
    JITTER_MIN ≤ pyUniform JITTER_MIN JITTER_MAX u ∧
    pyUniform JITTER_MIN JITTER_MAX u ≤ JITTER_MAX := by
  simp only [pyUniform, JITTER_MIN, JITTER_MAX]
  constructor <;> nlinarith

theorem process_query_jitter_mem (beh : EngineBeh) (us : JitterSource)
    (era_key : String) (total i : Nat) (q : String) (cp : Checkpoint)
    (j : Nat) (d : ℚ)
    (h : Event.jitterSleep j d ∈ (process_query beh us era_key total i q cp).2.1) :
    j = i ∧ i < total ∧ d = pyUniform JITTER_MIN JITTER_MAX (us i) := by
  by_cases hB : run_engine (beh "Bing" q) = _SKIP_ERA
  · simp [process_query, hB] at h
  · by_cases hBd : run_engine (beh "Baidu" q) = _SKIP_ERA
    · simp [process_query, hB, hBd] at h
    · by_cases hi : i < total
      · by_cases hs : run_engine (beh "Bing" q) = _OK ∨ run_engine (beh "Baidu" q) = _OK
        · simp [process_query, hB, hBd, hs, hi] at h
          exact ⟨h.1, hi, h.2⟩
        · simp [process_query, hB, hBd, hs, hi] at h
          exact ⟨h.1, hi, h.2⟩
      · by_cases hs : run_engine (beh "Bing" q) = _OK ∨ run_engine (beh "Baidu" q) = _OK
        · simp [process_query, hB, hBd, hs, hi] at h
        · simp [process_query, hB, hBd, hs, hi] at h

theorem process_era_loop_jitter (beh : EngineBeh) (us : JitterSource)
    (era_key : String) (total : Nat) :
    ∀ (qs : List String) (i : Nat) (cp : Checkpoint) (j : Nat) (d : ℚ),
      Event.jitterSleep j d ∈ (process_era_loop beh us era_key total i qs cp).1 →
      j < total ∧ d = pyUniform JITTER_MIN JITTER_MAX (us j) := by
  intro qs
  induction qs with
  | nil =>
    intro i cp j d h
    simp [process_era_loop] at h
  | cons q rest ih =>
    intro i cp j d h
    rw [process_era_loop] at h
    by_cases hd : is_done cp era_key q = true
    · rw [if_pos hd] at h
      exact ih (i + 1) cp j d h
    · rw [if_neg hd] at h
      rcases hr0 : process_query beh us era_key total i q cp with ⟨ab, evs, cp'⟩
      rw [hr0] at h
      cases ab with
      | true =>
        have hm : Event.jitterSleep j d
            ∈ (process_query beh us era_key total i q cp).2.1 := by
          rw [hr0]; exact h
        obtain ⟨hj, hit, hdv⟩ :=
          process_query_jitter_mem beh us era_key total i q cp j d hm
        subst hj
        exact ⟨hit, hdv⟩
      | false =>
        simp only [List.mem_append] at h
        rcases h with h | h
        · have hm : Event.jitterSleep j d
              ∈ (process_query beh us era_key total i q cp).2.1 := by
            rw [hr0]; exact h
          obtain ⟨hj, hit, hdv⟩ :=
            process_query_jitter_mem beh us era_key total i q cp j d hm
          subst hj
          exact ⟨hit, hdv⟩
        · exact ih (i + 1) cp' j d h

/-- Claim C9: every jitter duration the era processor draws lies in the
closed interval `[JITTER_MIN, JITTER_MAX]` (given that Python's `random()`
yields a unit draw in `[0, 1)`), and every jitter event is tagged with a
query index strictly below the era's query count — i.e. the jitter sleep is
never performed after the final query of the manifest list. -/
theorem jitter_within_bounds (beh : EngineBeh) (us : JitterSource) (era : Era)
    (cp : Checkpoint) (r : List Event × Checkpoint)
    (hu : ∀ n, 0 ≤ us n ∧ us n < 1)
    (hr : process_era beh us era cp = some r) :
    ∀ (j : Nat) (d : ℚ), Event.jitterSleep j d ∈ r.1 →
      (JITTER_MIN ≤ d ∧ d ≤ JITTER_MAX) ∧ j < era.icrawler_queries.length := by
  intro j d hmem
  rcases era with ⟨oidx, ot, queries⟩
  cases oidx with
  | none => exact (nomatch hr)
  | some idx =>
    cases ot with
    | none => exact (nomatch hr)
    | some t =>
      simp only [process_era] at hr
      by_cases hall : queries.countP
          (fun q => is_done cp (build_era_folder_name idx t) q) = queries.length
      · rw [if_pos hall] at hr
        cases Option.some.inj hr
        simp at hmem
      · rw [if_neg hall] at hr
        cases Option.some.inj hr
        obtain ⟨hj, hdv⟩ := process_era_loop_jitter beh us
          (build_era_folder_name idx t) queries.length queries 1 cp j d hmem
        refine ⟨?_, hj⟩
        rw [hdv]
        exact pyUniform_bounds (us j) (hu j).1 (hu j).2

/-- Witness for C9: a two-query era with both engines succeeding and a unit
draw of one half produces the jitter duration `2 + 3 · (1/2)` after the first
query; it lies in `[2, 5]` and its tag `1` is below the query count `2`. -/
theorem jitter_within_bounds_witness :
    (JITTER_MIN ≤ pyUniform JITTER_MIN JITTER_MAX (1/2) ∧
     pyUniform JITTER_MIN JITTER_MAX (1/2) ≤ JITTER_MAX) ∧
    1 < (Era.mk (some (Sum.inl 1)) (some "A") ["q", "r"]).icrawler_queries.length :=
  jitter_within_bounds (fun _ _ => none) (fun _ => 1/2)
    ⟨some (Sum.inl 1), some "A", ["q", "r"]⟩ []
    ([Event.engineCall "Bing" "q", Event.interEngineSleep,
      Event.engineCall "Baidu" "q", Event.checkpointSave,
      Event.jitterSleep 1 (pyUniform JITTER_MIN JITTER_MAX (1/2)),
      Event.engineCall "Bing" "r", Event.interEngineSleep,
      Event.engineCall "Baidu" "r", Event.checkpointSave],
     [("01_a", ["q", "r"])])
    (fun _ => ⟨by norm_num, by norm_num⟩) rfl
    1 (pyUniform JITTER_MIN JITTER_MAX (1/2)) (by simp)

/-! ## Orchestrator (`fashion_crawler.py`, lines 465-516) -/

/-- The parsed top-level value of `research.json`: a bare era list, an object
(whose `eras` key may be absent — `raw.get("eras", [])` then yields `[]`), or
any other JSON value (on which `raw.get` raises `AttributeError`). -/
inductive ManifestJson where
  | list (eras : List Era)
  | dict (eras : Option (List Era))
  | scalar

/-- Observable states of the manifest file: absent, present but not valid
JSON (`json.load` raises), or readable with a parsed value. -/
inductive ManifestState where
  | absent
  | malformed
  | readable (v : ManifestJson)

/-- How the process ends: `sys.exit(1)` (non-zero), an uncaught exception
(also a non-zero termination, but by crash rather than by the fail-fast
path), or normal completion with the final summary log. -/
inductive ExitOutcome where
  | exitNonZero
  | crashed
  | completed
deriving DecidableEq

/-- Embedding of `eras = raw if isinstance(raw, list) else raw.get("eras", [])`
(`fashion_crawler.py`, line 478); `none` models the `AttributeError` raised
when `raw` is neither a list nor an object. -/
def getEras : ManifestJson → Option (List Era)
  | .list es => some es
  | .dict (some es) => some es
  | .dict none => some []
  | .scalar => none

/-- Embedding of `for era in eras: process_era(era, base_dir, checkpoint)`
(`fashion_crawler.py`, lines 507-508); an uncaught `KeyError` from
`process_era` crashes the process. -/
def runEras (beh : EngineBeh) (us : JitterSource) :
    List Era → Checkpoint → ExitOutcome
  | [], _ => .completed
  | e :: rest, cp =>
    match process_era beh us e cp with
    | none => .crashed
    | some r => runEras beh us rest r.2

/-- True when some value of a loaded checkpoint mapping has no `len()`, so
`total_done = sum(len(v) for v in checkpoint.values())` (`fashion_crawler.py`,
line 491) raises `TypeError`. -/
def hasUnsizedValue (loaded : List (String × CpValue)) : Bool :=
  loaded.any (fun p => match p.2 with | .unsized => true | .strs _ => false)

/-- The loaded mapping viewed as an in-memory `Checkpoint`; meaningful when
`hasUnsizedValue` is false (under that guard the `.unsized` arm is dead). -/
def asCheckpoint (loaded : List (String × CpValue)) : Checkpoint :=
  loaded.map (fun p => (p.1, match p.2 with | .strs l => l | .unsized => []))

/-- Embedding of `main` (`fashion_crawler.py`, lines 465-512): exit 1 when the manifest
file is absent; crash when `json.load` raises on it; crash when the
top-level value supports neither branch of the list/object test; exit 1 when
the era list is empty; then load the checkpoint — crashing when
`load_checkpoint` raises (undecodable file) or when the resume-statistics
sum at line 491 hits a value without `len()` — and finally process every era
in order. -/
def main (beh : EngineBeh) (us : JitterSource) (cpf : CheckpointFileState) :
    ManifestState → ExitOutcome
  | .absent => .exitNonZero
  | .malformed => .crashed
  | .readable v =>
    match getEras v with
    | none => .crashed
    | some eras =>
      if eras.isEmpty then .exitNonZero
      else
        match load_checkpoint cpf with
        | none => .crashed
        | some loaded =>
          if hasUnsizedValue loaded then .crashed
          else runEras beh us eras (asCheckpoint loaded)

theorem process_era_wf_isSome (beh : EngineBeh) (us : JitterSource) (era : Era)
    (cp : Checkpoint) (h1 : era.era_index.isSome) (h2 : era.title.isSome) :
    ∃ r, process_era beh us era cp = some r := by
  rcases era with ⟨oidx, ot, queries⟩
  cases oidx with
  | none => exact (nomatch h1)
  | some idx =>
    cases ot with
    | none => exact (nomatch h2)
    | some t =>
      simp only [process_era]
      split
      · exact ⟨_, rfl⟩
      · exact ⟨_, rfl⟩

theorem runEras_completed (beh : EngineBeh) (us : JitterSource) :
    ∀ (es : List Era) (cp : Checkpoint),
      (∀ e ∈ es, e.era_index.isSome ∧ e.title.isSome) →
      runEras beh us es cp = .completed := by
  intro es
  induction es with
  | nil => intro cp _; rfl
  | cons e rest ih =>
    intro cp hwf
    obtain ⟨r, hr⟩ := process_era_wf_isSome beh us e cp
      (hwf e (List.mem_cons_self e rest)).1 (hwf e (List.mem_cons_self e rest)).2
    rw [runEras, hr]
    exact ih r.2 (fun e' he' => hwf e' (List.mem_cons_of_mem e he'))

theorem runEras_crashed (beh : EngineBeh) (us : JitterSource) :
    ∀ (es : List Era) (cp : Checkpoint),
      (∃ e ∈ es, e.era_index = none ∨ e.title = none) →
      runEras beh us es cp = .crashed := by
  intro es
  induction es with
  | nil =>
    intro cp h
    obtain ⟨e, he, _⟩ := h
    exact absurd he (List.not_mem_nil e)
  | cons e rest ih =>
    intro cp h
    by_cases hbad : e.era_index = none ∨ e.title = none
    · have hnone : process_era beh us e cp = none := by
        rcases e with ⟨oidx, ot, queries⟩
        cases oidx with
        | none => cases ot <;> rfl
        | some idx =>
          cases ot with
          | none => rfl
          | some t =>
            exfalso
            rcases hbad with hb | hb <;> exact (nomatch hb)
      rw [runEras, hnone]
    · push_neg at hbad
      obtain ⟨r, hr⟩ := process_era_wf_isSome beh us e cp
        (Option.isSome_iff_ne_none.mpr hbad.1) (Option.isSome_iff_ne_none.mpr hbad.2)
      rw [runEras, hr]
      apply ih
      obtain ⟨e', he', hbad'⟩ := h
      rcases List.mem_cons.mp he' with rfl | hmem
      · exact absurd hbad' (by push_neg; exact hbad)
      · exact ⟨e', hmem, hbad'⟩

/-- Counterexample to claim C6: a manifest file that exists but does not
parse as JSON is neither a missing manifest nor an empty era list, yet the
process terminates abnormally (uncaught `json.JSONDecodeError` in `main`,
line 475) instead of running to completion. -/
theorem main_malformed_manifest_crashes :
    main (fun _ _ => none) (fun _ => 0) .absent ManifestState.malformed
      = ExitOutcome.crashed ∧
    ManifestState.malformed ≠ ManifestState.absent ∧
    ExitOutcome.crashed ≠ ExitOutcome.completed :=
  ⟨rfl, fun h => (nomatch h), fun h => (nomatch h)⟩

/-- Claim C6 as amended: `main` exits non-zero via the fail-fast path for a
missing manifest or an empty era list; a manifest that is unreadable JSON,
or whose top-level value is neither a list nor an object, terminates the
process by an uncaught exception, and so — with a conforming non-empty
manifest — do a checkpoint file whose bytes are not valid UTF-8 (uncaught
`UnicodeDecodeError` in `load_checkpoint`), a checkpoint mapping holding a
value without `len()` (uncaught `TypeError` at the resume-statistics sum,
line 491), and an era object lacking the `era_index` or `title` key
(uncaught `KeyError` in `build_era_folder`).  For every manifest that parses
to a non-empty list of eras carrying `era_index` and `title`, together with
a checkpoint file that loads without raising into a string→string-list
mapping, the run always completes normally — whatever the engines do on
every query. -/
theorem main_exit_behavior (beh : EngineBeh) (us : JitterSource) :
    (∀ cpf, main beh us cpf .absent = .exitNonZero) ∧
    (∀ cpf, main beh us cpf .malformed = .crashed) ∧
    (∀ cpf, main beh us cpf (.readable .scalar) = .crashed) ∧
    (∀ cpf v, getEras v = some [] → main beh us cpf (.readable v) = .exitNonZero) ∧
    (∀ v es, getEras v = some es → es ≠ [] →
      main beh us .undecodable (.readable v) = .crashed) ∧
    (∀ cpf v es loaded, getEras v = some es → es ≠ [] →
      load_checkpoint cpf = some loaded → hasUnsizedValue loaded = true →
      main beh us cpf (.readable v) = .crashed) ∧
    (∀ cpf v es, getEras v = some es → es ≠ [] →
      (∃ e ∈ es, e.era_index = none ∨ e.title = none) →
      main beh us cpf (.readable v) = .crashed) ∧
    (∀ cpf v es loaded, getEras v = some es → es ≠ [] →
      (∀ e ∈ es, e.era_index.isSome ∧ e.title.isSome) →
      load_checkpoint cpf = some loaded → hasUnsizedValue loaded = false →
      main beh us cpf (.readable v) = .completed) := by
  have hemp : ∀ (es : List Era), es ≠ [] → es.isEmpty = false := by
    intro es hne
    cases es with
    | nil => exact absurd rfl hne
    | cons _ _ => rfl
  refine ⟨fun _ => rfl, fun _ => rfl, fun _ => rfl, ?_, ?_, ?_, ?_, ?_⟩
  · intro cpf v h
    simp [main, h]
  · intro v es h hne
    simp [main, h, hemp es hne, load_checkpoint]
  · intro cpf v es loaded h hne hload hu
    simp [main, h, hemp es hne, hload, hu]
  · intro cpf v es h hne hbad
    rcases hload : load_checkpoint cpf with _ | loaded
    · simp [main, h, hemp es hne, hload]
    · cases hu : hasUnsizedValue loaded
      · simp only [main, h, hemp es hne, Bool.false_eq_true, if_false, hload, hu]
        exact runEras_crashed beh us es (asCheckpoint loaded) hbad
      · simp [main, h, hemp es hne, hload, hu]
  · intro cpf v es loaded h hne hwf hload hu
    simp only [main, h, hemp es hne, Bool.false_eq_true, if_false, hload, hu]
    exact runEras_completed beh us es (asCheckpoint loaded) hwf

/-- Witness for C6 (amended): a one-era, one-query manifest with both engines
succeeding and an absent checkpoint file completes normally. -/
theorem main_exit_behavior_witness :
    main (fun _ _ => none) (fun _ => 0) .absent
      (.readable (.list [⟨some (Sum.inl 1), some "A", ["q"]⟩])) = .completed :=
  (main_exit_behavior (fun _ _ => none) (fun _ => 0)).2.2.2.2.2.2.2
    .absent (.list [⟨some (Sum.inl 1), some "A", ["q"]⟩])
    [⟨some (Sum.inl 1), some "A", ["q"]⟩] []
    rfl (List.cons_ne_nil _ _) (by simp) rfl rfl

/-! ## Folder naming (claim C7) -/

theorem toLower_isUpper_false (c : Char) : c.toLower.isUpper = false := by
  show (if c.toNat ≥ 65 ∧ c.toNat ≤ 90 then Char.ofNat (c.toNat + 32) else c).isUpper
    = false
  by_cases h : c.toNat ≥ 65 ∧ c.toNat ≤ 90
  · rw [if_pos h]
    obtain ⟨h1, h2⟩ := h
    set n := c.toNat with hn
    interval_cases n <;> decide
  · rw [if_neg h]
    rw [Char.isUpper, Bool.and_eq_false_iff]
    by_cases h1 : c.toNat ≥ 65
    · right
      rw [decide_eq_false_iff_not]
      intro hle
      apply h
      refine ⟨h1, ?_⟩
      have hb : c.val.toBitVec.toNat ≤ (90 : UInt32).toBitVec.toNat :=
        BitVec.le_def.mp (UInt32.le_def.mp hle)
      simpa using hb
    · left
      rw [decide_eq_false_iff_not]
      intro hge
      apply h1
      have hb : (65 : UInt32).toBitVec.toNat ≤ c.val.toBitVec.toNat :=
        BitVec.le_def.mp (UInt32.le_def.mp hge)
      simpa using hb

theorem head?_dropWhile_ne (p : Char → Bool) (l : List Char) (c : Char)
    (h : (l.dropWhile p).head? = some c) : p c = false := by
  induction l with
  | nil => simp [List.dropWhile] at h
  | cons a rest ih =>
    by_cases ha : p a = true
    · rw [List.dropWhile_cons, if_pos ha] at h
      exact ih h
    · rw [List.dropWhile_cons, if_neg ha] at h
      cases Option.some.inj h
      exact Bool.eq_false_iff.mpr ha

theorem mem_strip_both (p : Char → Bool) (l : List Char) (c : Char)
    (h : c ∈ ((l.dropWhile p).reverse.dropWhile p).reverse) : c ∈ l := by
  rw [List.mem_reverse] at h
  have h1 : c ∈ (l.dropWhile p).reverse := (List.dropWhile_suffix p).mem h
  rw [List.mem_reverse] at h1
  exact (List.dropWhile_suffix p).mem h1

theorem mem_collapseSeps (l : List Char) :
    ∀ (b : Bool) (c : Char), c ∈ collapseSeps b l →
      c = '_' ∨ (c ∈ l ∧ isSepChar c = false) := by
  induction l with
  | nil => intro b c h; simp [collapseSeps] at h
  | cons a rest ih =>
    intro b c h
    by_cases hs : isSepChar a = true
    · cases b with
      | true =>
        rw [collapseSeps, if_pos hs, if_pos (rfl : (true : Bool) = true)] at h
        rcases ih true c h with h1 | ⟨hm, hns⟩
        · exact Or.inl h1
        · exact Or.inr ⟨List.mem_cons_of_mem a hm, hns⟩
      | false =>
        rw [collapseSeps, if_pos hs, if_neg (by decide : ¬ false = true)] at h
        rcases List.mem_cons.mp h with h1 | h1
        · exact Or.inl h1
        · rcases ih true c h1 with h2 | ⟨hm, hns⟩
          · exact Or.inl h2
          · exact Or.inr ⟨List.mem_cons_of_mem a hm, hns⟩
    · rw [collapseSeps, if_neg hs] at h
      rcases List.mem_cons.mp h with h1 | h1
      · subst h1
        exact Or.inr ⟨List.mem_cons_self c rest, Bool.eq_false_iff.mpr hs⟩
      · rcases ih false c h1 with h2 | ⟨hm, hns⟩
        · exact Or.inl h2
        · exact Or.inr ⟨List.mem_cons_of_mem a hm, hns⟩

theorem collapseSeps_true_head (l : List Char) (c : Char)
    (h : (collapseSeps true l).head? = some c) : c ≠ '_' := by
  induction l with
  | nil => simp [collapseSeps] at h
  | cons a rest ih =>
    by_cases hs : isSepChar a = true
    · rw [collapseSeps, if_pos hs, if_pos (rfl : (true : Bool) = true)] at h
      exact ih h
    · rw [collapseSeps, if_neg hs, List.head?_cons] at h
      cases Option.some.inj h
      intro hc
      rw [hc] at hs
      exact hs (by decide)

theorem collapseSeps_chain (l : List Char) :
    ∀ b, List.Chain' (fun a c => ¬(a = '_' ∧ c = '_')) (collapseSeps b l) := by
  induction l with
  | nil => intro b; simp [collapseSeps]
  | cons a rest ih =>
    intro b
    by_cases hs : isSepChar a = true
    · cases b with
      | true =>
        rw [collapseSeps, if_pos hs, if_pos (rfl : (true : Bool) = true)]
        exact ih true
      | false =>
        rw [collapseSeps, if_pos hs, if_neg (by decide : ¬ false = true)]
        rw [List.chain'_cons']
        refine ⟨?_, ih true⟩
        intro y hy hcon
        exact collapseSeps_true_head rest y hy hcon.2
    · rw [collapseSeps, if_neg hs]
      rw [List.chain'_cons']
      refine ⟨?_, ih false⟩
      intro y hy hcon
      rw [hcon.1] at hs
      exact hs (by decide)

theorem stripUnderscores_within (l : List Char) : stripUnderscores l <:+: l := by
  have h0 : (l.dropWhile (· == '_')).reverse.dropWhile (· == '_')
      <:+ (l.dropWhile (· == '_')).reverse := List.dropWhile_suffix _
  have h2 := List.reverse_prefix.mpr h0
  rw [List.reverse_reverse] at h2
  exact h2.isInfix.trans (List.dropWhile_suffix (· == '_')).isInfix

theorem stripUnderscores_ends (l : List Char) :
    ¬ (['_'] <+: stripUnderscores l) ∧ ¬ (['_'] <:+ stripUnderscores l) := by
  constructor
  · intro h
    obtain ⟨tl, htl⟩ := h
    have hh : (stripUnderscores l).head? = some '_' := by
      rw [← htl]; rfl
    rw [stripUnderscores, List.head?_reverse] at hh
    obtain ⟨pre, hpre⟩ := List.dropWhile_suffix (l := (l.dropWhile (· == '_')).reverse)
      (· == '_')
    have hx : ((l.dropWhile (· == '_')).reverse).getLast? = some '_' := by
      rw [← hpre, List.getLast?_append, hh]
      rfl
    rw [List.getLast?_reverse] at hx
    have hc := head?_dropWhile_ne (· == '_') l '_' hx
    simp at hc
  · intro h
    obtain ⟨pre, hpre⟩ := h
    have hh : (stripUnderscores l).getLast? = some '_' := by
      rw [← hpre]
      exact List.getLast?_concat pre
    rw [stripUnderscores, List.getLast?_reverse] at hh
    have hc := head?_dropWhile_ne (· == '_') _ '_' hh
    simp at hc

theorem slugify_data (t : String) :
    (slugify t).data = stripUnderscores (collapseSeps false
      ((pyStrip (pyLower t)).data.filter (fun c => isWordChar c || isSpaceChar c))) :=
  rfl

theorem slugify_chars (t : String) :
    ∀ c ∈ (slugify t).data, (c.isLower || c.isDigit || c == '_') = true := by
  intro c hc
  rw [slugify_data] at hc
  have hc2 : c ∈ collapseSeps false
      ((pyStrip (pyLower t)).data.filter (fun c => isWordChar c || isSpaceChar c)) :=
    mem_strip_both (· == '_') _ c hc
  rcases mem_collapseSeps _ false c hc2 with rfl | ⟨hmem, hsep⟩
  · decide
  · obtain ⟨hmemt, hword⟩ := List.mem_filter.mp hmem
    have hmem2 : c ∈ (pyLower t).data := mem_strip_both isSpaceChar _ c hmemt
    obtain ⟨c0, _, hc0⟩ := List.mem_map.mp hmem2
    have hup : c.isUpper = false := hc0 ▸ toLower_isUpper_false c0
    simp only [isSepChar, Bool.or_eq_false_iff] at hsep
    obtain ⟨hsp, hund⟩ := hsep
    simp only [isWordChar, hund, Bool.or_false, hsp] at hword
    rw [Char.isAlphanum, Char.isAlpha, hup, Bool.false_or] at hword
    rcases Bool.or_eq_true_iff.mp hword with h | h
    · simp [h]
    · simp [h]

/-- Counterexample to claim C7: when `era_index` is the *string* `"1"`,
`build_era_folder` uses the string verbatim (line 168: `zfill` applies only
in the `isinstance(raw_idx, int)` branch), so the derived identifier is not
the zero-padded 2-digit form the claim asserts for every era. -/
theorem string_index_not_padded :
    build_era_folder_name (Sum.inr "1") "Ancient Egypt and Mesopotamia"
      = "1_ancient_egypt_and_mesopotamia" ∧
    "1_ancient_egypt_and_mesopotamia" ≠ "01_ancient_egypt_and_mesopotamia" :=
  ⟨rfl, by decide⟩

/-- Claim C7 as amended: the folder identifier is deterministic in
(index, title); for an *int* index it is `str(index).zfill(2)` (zero-padded
to at least two digits), an underscore, then the slugified title — e.g. int
index 1 with title "Ancient Egypt and Mesopotamia" yields
"01_ancient_egypt_and_mesopotamia" — while a *string* index is used
verbatim, without padding.  Slugification lowercases, strips non-word
characters, collapses whitespace/underscore runs to a single underscore and
trims leading/trailing underscores: every slug character is a lowercase
letter, a digit or an underscore, the slug neither starts nor ends with an
underscore, and contains no two consecutive underscores. -/
theorem era_folder_naming (s title : String) (n : Int) :
    build_era_folder_name (Sum.inl 1) "Ancient Egypt and Mesopotamia"
      = "01_ancient_egypt_and_mesopotamia" ∧
    build_era_folder_name (Sum.inl n) title
      = zfill (Int.repr n) 2 ++ "_" ++ slugify title ∧
    build_era_folder_name (Sum.inr s) title = s ++ "_" ++ slugify title ∧
    (∀ c ∈ (slugify title).data, (c.isLower || c.isDigit || c == '_') = true) ∧
    ¬ (['_'] <+: (slugify title).data) ∧
    ¬ (['_'] <:+ (slugify title).data) ∧
    ¬ (['_', '_'] <:+: (slugify title).data) := by
  refine ⟨rfl, rfl, rfl, slugify_chars title, (stripUnderscores_ends _).1,
    (stripUnderscores_ends _).2, ?_⟩
  intro h
  have hch := List.Chain'.infix (collapseSeps_chain _ false)
    (h.trans (stripUnderscores_within _))
  rw [List.chain'_cons'] at hch
  exact hch.1 '_' rfl ⟨rfl, rfl⟩

/-- Witness for C7 (amended) at concrete inputs: the int-index example and
the string-index verbatim case. -/
theorem era_folder_naming_witness :
    build_era_folder_name (Sum.inl 1) "Ancient Egypt and Mesopotamia"
      = "01_ancient_egypt_and_mesopotamia" ∧
    build_era_folder_name (Sum.inr "03") "Renaissance"
      = "03" ++ "_" ++ slugify "Renaissance" :=
  ⟨(era_folder_naming "03" "Renaissance" 1).1,
   (era_folder_naming "03" "Renaissance" 1).2.2.1⟩

end FashionCrawler
